import Mathlib

/-!
Verification of the pricing-and-spread-selection engine of the
AI-powered options trade analyzer (`src/tastytrade_data/find_tendies.py`).

The Python floats are modelled as real numbers; the standard normal
distribution functions of `scipy.stats.norm` are modelled by their
mathematical definitions.  JSON dictionaries become association lists
(Python dicts preserve insertion order and later bindings to the same
key overwrite earlier ones, hence key lookup searches the reversed
flattened record list).  Option types are the strings of the source
(`'call'` / `'put'`).
-/

open MeasureTheory Real

noncomputable section

/-- `scipy.stats.norm.pdf`: density of the standard normal distribution. -/
def normPdf (x : ℝ) : ℝ := Real.exp (-(x ^ 2) / 2) / Real.sqrt (2 * Real.pi)

/-- `scipy.stats.norm.cdf`: cumulative distribution function of the
standard normal distribution. -/
def normCdf (x : ℝ) : ℝ := ∫ t in Set.Iic x, normPdf t

/-- `BlackScholesCalculator.__init__(self, risk_free_rate=0.05)`. -/
structure BlackScholesCalculator where
  risk_free_rate : ℝ

/-- `BlackScholesCalculator.black_scholes_call`. -/
def BlackScholesCalculator.black_scholes_call (_self : BlackScholesCalculator)
    (S K T r sigma : ℝ) : ℝ :=
  if T ≤ 0 then max (S - K) 0
  else if sigma ≤ 0 then max (S - K) 0
  else
    let d1 := (Real.log (S / K) + (r + 0.5 * sigma ^ 2) * T) / (sigma * Real.sqrt T)
    let d2 := d1 - sigma * Real.sqrt T
    max (S * normCdf d1 - K * Real.exp (-(r * T)) * normCdf d2) 0

/-- `BlackScholesCalculator.probability_otm`; the option type is the
source's string argument, default `'call'`. -/
def BlackScholesCalculator.probability_otm (self : BlackScholesCalculator)
    (S K T sigma : ℝ) (option_type : String := "call") : ℝ :=
  if T ≤ 0 then
    if (option_type = "call" ∧ S < K) ∨ (option_type = "put" ∧ S > K) then 1 else 0
  else if sigma ≤ 0 then
    if (option_type = "call" ∧ S < K) ∨ (option_type = "put" ∧ S > K) then 1 else 0
  else
    let d2 := (Real.log (S / K) + (self.risk_free_rate - 0.5 * sigma ^ 2) * T) /
      (sigma * Real.sqrt T)
    if option_type = "call" then normCdf (-d2) else normCdf d2

/-- The dictionary returned by `BlackScholesCalculator.calculate_greeks`. -/
structure GreeksResult where
  delta : ℝ
  theta : ℝ
  gamma : ℝ
  vega : ℝ

/-- `BlackScholesCalculator.calculate_greeks`. -/
def BlackScholesCalculator.calculate_greeks (_self : BlackScholesCalculator)
    (S K T r sigma : ℝ) (option_type : String := "call") : GreeksResult :=
  if T ≤ 0 then ⟨0, 0, 0, 0⟩
  else if sigma ≤ 0 then ⟨0, 0, 0, 0⟩
  else
    let d1 := (Real.log (S / K) + (r + 0.5 * sigma ^ 2) * T) / (sigma * Real.sqrt T)
    let d2 := d1 - sigma * Real.sqrt T
    let gamma := normPdf d1 / (S * sigma * Real.sqrt T)
    let vega := S * normPdf d1 * Real.sqrt T / 100
    if option_type = "call" then
      { delta := normCdf d1
        theta := (-S * normPdf d1 * sigma / (2 * Real.sqrt T)
          - r * K * Real.exp (-(r * T)) * normCdf d2) / 365
        gamma := gamma, vega := vega }
    else
      { delta := -normCdf (-d1)
        theta := (-S * normPdf d1 * sigma / (2 * Real.sqrt T)
          + r * K * Real.exp (-(r * T)) * normCdf (-d2)) / 365
        gamma := gamma, vega := vega }

/-- Modelled from the spec: the unified `price(S,K,T,r,σ,type)` operation of
§4.1.  The source only implements the CALL branch (`black_scholes_call`);
the PUT branch is missing from `src/` and is taken from the spec's words:
the closed-form Black-Scholes put price, returning the intrinsic value
`max(K−S,0)` when `T≤0` or `σ≤0`. -/
def BlackScholesCalculator.price (self : BlackScholesCalculator)
    (S K T r sigma : ℝ) (option_type : String) : ℝ :=
  if option_type = "call" then self.black_scholes_call S K T r sigma
  else
    if T ≤ 0 then max (K - S) 0
    else if sigma ≤ 0 then max (K - S) 0
    else
      let d1 := (Real.log (S / K) + (r + 0.5 * sigma ^ 2) * T) / (sigma * Real.sqrt T)
      let d2 := d1 - sigma * Real.sqrt T
      max (K * Real.exp (-(r * T)) * normCdf (-d2) - S * normCdf (-d1)) 0

/-- A contract record of `step2_options_contracts.json`. -/
structure OptionContract where
  streamer_symbol : String
  strike_price : ℝ
  contract_type : String
  days_until_expires : ℝ

/-- One expiration-date entry of the chain data. -/
structure ExpirationData where
  contracts : List OptionContract

/-- One company entry of the chain data. -/
structure CompanyOptions where
  current_stock_price : ℝ
  expiration_dates : List (String × ExpirationData)

/-- A record of `step3_risk_analysis.json` (`risk_by_company`). -/
structure GreekRecord where
  contract_name : String
  implied_volatility : ℝ

/-- A record of `step4_market_prices.json` (`prices_by_company`). -/
structure PriceRecord where
  contract_name : String
  what_buyers_pay : ℝ
  what_sellers_want : ℝ

/-- The three input datasets consumed by `find_deals_with_delta_analysis`
(the stock-price file is loaded but never used afterwards, so it is not
modelled). -/
structure InputData where
  options_by_company : List (String × CompanyOptions)
  risk_by_company : List (String × List GreekRecord)
  prices_by_company : List (String × List PriceRecord)

/-- `greek_lookup[...] = greek` built by the double loop over
`risk_by_company`: a later binding of the same contract name overwrites an
earlier one, so lookup scans the reversed flattened record list. -/
def greek_lookup (risk : List (String × List GreekRecord)) (sym : String) :
    Option GreekRecord :=
  (risk.flatMap Prod.snd).reverse.find? (fun g => g.contract_name == sym)

/-- `price_lookup[...] = price` built by the double loop over
`prices_by_company`, with the same last-binding-wins dict semantics. -/
def price_lookup (prices : List (String × List PriceRecord)) (sym : String) :
    Option PriceRecord :=
  (prices.flatMap Prod.snd).reverse.find? (fun p => p.contract_name == sym)

/-- One entry of the `all_spreads_*` lists (the `spread` dict of the loop
body; the purely presentational `explanation` string is not modelled). -/
structure Spread where
  company : String
  short_strike : ℝ
  long_strike : ℝ
  days_to_expiration : ℝ
  credit_collected : ℝ
  max_risk : ℝ
  roi_percent : ℝ
  probability_of_profit : ℝ
  current_stock_price : ℝ
  avg_implied_volatility : ℝ
  spread_delta : ℝ
  spread_theta : ℝ
  delta_interpretation : String

/-- The SpreadConstructor: CALL contracts with strike strictly above spot,
sorted ascending by strike price (Python `list.sort` is stable, as is
`List.mergeSort`). -/
def calls_above_price (spot : ℝ) (contracts : List OptionContract) :
    List OptionContract :=
  ((contracts.filter (fun c => c.contract_type == "CALL")).filter
    (fun c => decide (c.strike_price > spot))).mergeSort
    (fun a b => decide (a.strike_price ≤ b.strike_price))

/-- The adjacent pairs `(i, i+1)` enumerated by the candidate loop. -/
def adjacentPairs {α : Type} (l : List α) : List (α × α) := l.zip l.tail

/-- The loop body for one candidate pair `(short_call, long_call)`:
`none` models a `continue` (the candidate contributes to no list), `some`
the spread dict appended to `all_spreads_no_delta`. -/
def processPair (bs : BlackScholesCalculator) (company : String) (spot : ℝ)
    (priceL : String → Option PriceRecord) (greekL : String → Option GreekRecord)
    (short_call long_call : OptionContract) : Option Spread :=
  if long_call.strike_price - short_call.strike_price > 5 then none
  else
    match priceL short_call.streamer_symbol, priceL long_call.streamer_symbol,
        greekL short_call.streamer_symbol, greekL long_call.streamer_symbol with
    | some short_price_data, some long_price_data,
        some short_greek_data, some long_greek_data =>
      let short_iv := short_greek_data.implied_volatility
      let long_iv := long_greek_data.implied_volatility
      let avg_iv := (short_iv + long_iv) / 2
      let days_to_exp := short_call.days_until_expires
      let time_to_exp := days_to_exp / 365
      if time_to_exp ≤ 0 then none
      else
        let short_bid := short_price_data.what_buyers_pay
        let long_ask := long_price_data.what_sellers_want
        if short_bid ≤ 0 ∨ long_ask ≤ 0 then none
        else
          let market_credit := short_bid - long_ask
          if market_credit ≤ 0 then none
          else
            let prob_profit_bs :=
              bs.probability_otm spot short_call.strike_price time_to_exp avg_iv "call"
                * 100
            let strike_width := long_call.strike_price - short_call.strike_price
            let max_risk := strike_width - market_credit
            let roi_percent :=
              if max_risk > 0 then market_credit / max_risk * 100 else 0
            let short_greeks := bs.calculate_greeks spot short_call.strike_price
              time_to_exp bs.risk_free_rate short_iv "call"
            let long_greeks := bs.calculate_greeks spot long_call.strike_price
              time_to_exp bs.risk_free_rate long_iv "call"
            let spread_delta := short_greeks.delta - long_greeks.delta
            let spread_theta := short_greeks.theta - long_greeks.theta
            if roi_percent ≤ 10 ∨ prob_profit_bs ≤ 66 then none
            else
              some
                { company := company
                  short_strike := short_call.strike_price
                  long_strike := long_call.strike_price
                  days_to_expiration := days_to_exp
                  credit_collected := market_credit
                  max_risk := max_risk
                  roi_percent := roi_percent
                  probability_of_profit := prob_profit_bs
                  current_stock_price := spot
                  avg_implied_volatility := avg_iv
                  spread_delta := spread_delta
                  spread_theta := spread_theta
                  delta_interpretation :=
                    if |spread_delta| ≤ 0.2 then "Neutral"
                    else if spread_delta > 0.2 then "Bullish" else "Bearish" }
    | _, _, _, _ => none

/-- All spreads a single expiration date contributes to
`all_spreads_no_delta`, in loop order. -/
def expirationSpreads (bs : BlackScholesCalculator) (company : String) (spot : ℝ)
    (priceL : String → Option PriceRecord) (greekL : String → Option GreekRecord)
    (contracts : List OptionContract) : List Spread :=
  (adjacentPairs (calls_above_price spot contracts)).filterMap
    (fun p => processPair bs company spot priceL greekL p.1 p.2)

/-- All spreads a single company contributes, in loop order. -/
def companySpreads (bs : BlackScholesCalculator) (company : String)
    (co : CompanyOptions) (priceL : String → Option PriceRecord)
    (greekL : String → Option GreekRecord) : List Spread :=
  co.expiration_dates.flatMap
    (fun e => expirationSpreads bs company co.current_stock_price priceL greekL
      e.2.contracts)

/-- The membership test of `all_spreads_loose_delta`
(`-0.5 <= spread_delta <= 0.5`). -/
def loosePred (s : Spread) : Bool :=
  decide (-0.5 ≤ s.spread_delta) && decide (s.spread_delta ≤ 0.5)

/-- The membership test of `all_spreads_strict_delta`
(`-0.2 <= spread_delta <= 0.2`). -/
def strictPred (s : Spread) : Bool :=
  decide (-0.2 ≤ s.spread_delta) && decide (s.spread_delta ≤ 0.2)

/-- Python's `sort(key=probability_of_profit, reverse=True)`: a stable
descending sort by PoP. -/
def sortByPop (l : List Spread) : List Spread :=
  l.mergeSort (fun a b => decide (b.probability_of_profit ≤ a.probability_of_profit))

/-- The state produced by one run of `find_deals_with_delta_analysis`:
the three sorted candidate-list views plus the saved result document
(`step5_delta_analysis.json`).  `timestamp` holds `datetime.now().isoformat()`,
supplied by the clock as an explicit argument `now`. -/
structure Output where
  all_spreads_no_delta : List Spread
  all_spreads_loose_delta : List Spread
  all_spreads_strict_delta : List Spread
  step : ℕ
  filters_used : String
  total_opportunities : ℕ
  no_delta_filter : ℕ
  loose_delta_filter : ℕ
  strict_delta_filter : ℕ
  best_deals : List Spread
  timestamp : String

/-- `bs_calc = BlackScholesCalculator()`: the calculator instance used by
the pipeline, with the default risk-free rate `0.05`. -/
def bs_calc : BlackScholesCalculator := ⟨0.05⟩

/-- The contents of `all_spreads_no_delta` before the final sort: every
company's contribution, in loop order. -/
def baseSpreads (data : InputData) : List Spread :=
  data.options_by_company.flatMap
    (fun c => companySpreads bs_calc c.1 c.2
      (price_lookup data.prices_by_company) (greek_lookup data.risk_by_company))

/-- `find_deals_with_delta_analysis`.  Appending a spread to the loose and
strict lists under the per-iteration delta conditions is, order for order,
filtering the accepted list by those conditions. -/
def find_deals_with_delta_analysis (data : InputData) (now : String) : Output :=
  let all_spreads_no_delta := sortByPop (baseSpreads data)
  let all_spreads_loose_delta := sortByPop ((baseSpreads data).filter loosePred)
  let all_spreads_strict_delta := sortByPop ((baseSpreads data).filter strictPred)
  { all_spreads_no_delta := all_spreads_no_delta
    all_spreads_loose_delta := all_spreads_loose_delta
    all_spreads_strict_delta := all_spreads_strict_delta
    step := 5
    filters_used := "ROI > 10%, PoP > 66%, NO delta filter"
    total_opportunities := all_spreads_no_delta.length
    no_delta_filter := all_spreads_no_delta.length
    loose_delta_filter := all_spreads_loose_delta.length
    strict_delta_filter := all_spreads_strict_delta.length
    best_deals := all_spreads_no_delta.take 25
    timestamp := now }

/-- Dropping the only clock-dependent field of the result document. -/
def eraseTimestamp (o : Output) : Output := { o with timestamp := "" }

/-! ### Concrete test datasets -/

/-- A CALL contract one strike above the spot price of `tCompany`. -/
def cA : OptionContract := ⟨"a", 101, "CALL", 30⟩

/-- The adjacent CALL contract above `cA`. -/
def cB : OptionContract := ⟨"b", 102, "CALL", 30⟩

/-- An expiration entry holding the two adjacent OTM calls. -/
def tExp : ExpirationData := ⟨[cA, cB]⟩

/-- A company with spot `100` and 26 expiration dates, each listing the
two contracts; every expiration contributes one accepted spread. -/
def tCompany : CompanyOptions :=
  ⟨100,
    [("e01", tExp), ("e02", tExp), ("e03", tExp), ("e04", tExp), ("e05", tExp),
     ("e06", tExp), ("e07", tExp), ("e08", tExp), ("e09", tExp), ("e10", tExp),
     ("e11", tExp), ("e12", tExp), ("e13", tExp), ("e14", tExp), ("e15", tExp),
     ("e16", tExp), ("e17", tExp), ("e18", tExp), ("e19", tExp), ("e20", tExp),
     ("e21", tExp), ("e22", tExp), ("e23", tExp), ("e24", tExp), ("e25", tExp),
     ("e26", tExp)]⟩

/-- Quote data: the short leg bids `1`, the long leg asks `0.5`. -/
def tPrices : List (String × List PriceRecord) :=
  [("T", [⟨"a", 1, 2⟩, ⟨"b", 0.4, 0.5⟩])]

/-- Risk data: both legs carry implied volatility `0`, so the pricing
model takes its deterministic `σ ≤ 0` branch. -/
def tRisk : List (String × List GreekRecord) :=
  [("T", [⟨"a", 0⟩, ⟨"b", 0⟩])]

/-- A full input dataset on which 26 spreads pass the primary filter. -/
def tData : InputData := ⟨[("T", tCompany)], tRisk, tPrices⟩

/-- The spread each expiration of `tData` produces: credit
`1 − 0.5 = 0.5`, max risk `0.5`, ROI `100`, PoP `100` (σ = 0 and spot
below the short strike), spread delta/theta `0`. -/
def tSpread : Spread :=
  ⟨"T", 101, 102, 30, 0.5, 0.5, 100, 100, 100, 0, 0, 0, "Neutral"⟩

/-- Two CALL contracts sharing the strike `101`, both above spot `100`. -/
def dupC1 : OptionContract := ⟨"d1", 101, "CALL", 30⟩

/-- The second contract with the duplicated strike. -/
def dupC2 : OptionContract := ⟨"d2", 101, "CALL", 30⟩

/-! ### Properties of the standard normal distribution -/

/-- The standard normal density written in the `exp (-b * x ^ 2)` shape
of Mathlib's Gaussian-integral lemmas. -/
lemma normPdf_eq (x : ℝ) :
    normPdf x = Real.exp (-(1 / 2 : ℝ) * x ^ 2) * (Real.sqrt (2 * Real.pi))⁻¹ := by
  unfold normPdf
  rw [div_eq_mul_inv]
  ring_nf

lemma normPdf_nonneg (x : ℝ) : 0 ≤ normPdf x := by
  unfold normPdf
  positivity

lemma integrable_normPdf : Integrable normPdf := by
  have h : Integrable (fun x : ℝ => Real.exp (-(1 / 2 : ℝ) * x ^ 2)) :=
    integrable_exp_neg_mul_sq (by norm_num)
  exact (h.mul_const (Real.sqrt (2 * Real.pi))⁻¹).congr
    (Filter.Eventually.of_forall fun x => (normPdf_eq x).symm)

/-- The standard normal density integrates to `1` over the whole line. -/
lemma integral_normPdf : ∫ t, normPdf t = 1 := by
  have h : (∫ t : ℝ, Real.exp (-(1 / 2 : ℝ) * t ^ 2)) = Real.sqrt (Real.pi / (1 / 2)) :=
    integral_gaussian (1 / 2)
  have hs : Real.sqrt (Real.pi / (1 / 2)) = Real.sqrt (2 * Real.pi) := by
    norm_num [mul_comm]
  calc ∫ t, normPdf t
      = ∫ t, Real.exp (-(1 / 2 : ℝ) * t ^ 2) * (Real.sqrt (2 * Real.pi))⁻¹ := by
        simp only [normPdf_eq]
    _ = (∫ t, Real.exp (-(1 / 2 : ℝ) * t ^ 2)) * (Real.sqrt (2 * Real.pi))⁻¹ := by
        rw [integral_mul_right]
    _ = 1 := by
        rw [h, hs, mul_inv_cancel₀]
        positivity

/-- `normCdf` is monotone. -/
lemma normCdf_mono {x y : ℝ} (hxy : x ≤ y) : normCdf x ≤ normCdf y := by
  unfold normCdf
  refine setIntegral_mono_set integrable_normPdf.integrableOn
    (Filter.Eventually.of_forall fun t => normPdf_nonneg t) ?_
  exact HasSubset.Subset.eventuallyLE (Set.Iic_subset_Iic.mpr hxy)

lemma normCdf_nonneg (x : ℝ) : 0 ≤ normCdf x :=
  setIntegral_nonneg measurableSet_Iic fun t _ => normPdf_nonneg t

lemma normCdf_le_one (x : ℝ) : normCdf x ≤ 1 := by
  calc normCdf x ≤ ∫ t, normPdf t :=
        setIntegral_le_integral integrable_normPdf
          (Filter.Eventually.of_forall fun t => normPdf_nonneg t)
    _ = 1 := integral_normPdf

/-! ### Inversion and membership infrastructure -/

/-- Inversion of the candidate loop body: a produced spread records the
joined data exactly, all guards having passed. -/
theorem processPair_some_inv {bs : BlackScholesCalculator} {company : String}
    {spot : ℝ} {priceL : String → Option PriceRecord}
    {greekL : String → Option GreekRecord} {sc lc : OptionContract} {s : Spread}
    (h : processPair bs company spot priceL greekL sc lc = some s) :
    ∃ spd lpd sgd lgd,
      priceL sc.streamer_symbol = some spd ∧
      priceL lc.streamer_symbol = some lpd ∧
      greekL sc.streamer_symbol = some sgd ∧
      greekL lc.streamer_symbol = some lgd ∧
      lc.strike_price - sc.strike_price ≤ 5 ∧
      0 < sc.days_until_expires / 365 ∧
      0 < spd.what_buyers_pay ∧
      0 < lpd.what_sellers_want ∧
      0 < spd.what_buyers_pay - lpd.what_sellers_want ∧
      10 < s.roi_percent ∧ 66 < s.probability_of_profit ∧
      s.company = company ∧
      s.short_strike = sc.strike_price ∧
      s.long_strike = lc.strike_price ∧
      s.days_to_expiration = sc.days_until_expires ∧
      s.credit_collected = spd.what_buyers_pay - lpd.what_sellers_want ∧
      s.current_stock_price = spot ∧
      s.avg_implied_volatility =
        (sgd.implied_volatility + lgd.implied_volatility) / 2 ∧
      s.probability_of_profit =
        bs.probability_otm spot sc.strike_price (sc.days_until_expires / 365)
          ((sgd.implied_volatility + lgd.implied_volatility) / 2) "call" * 100 := by
  by_cases hw : lc.strike_price - sc.strike_price > 5
  · rw [processPair, if_pos hw] at h
    exact absurd h (by simp)
  rw [processPair, if_neg hw] at h
  split at h
  case _ spd lpd sgd lgd hspd hlpd hsgd hlgd =>
    simp only [Option.ite_none_left_eq_some, Option.some.injEq] at h
    obtain ⟨hT, hba, hcr, hfil, hs⟩ := h
    push_neg at hT hba hcr hfil
    subst hs
    exact ⟨spd, lpd, sgd, lgd, hspd, hlpd, hsgd, hlgd, not_lt.mp hw, hT, hba.1,
      hba.2, hcr, hfil.1, hfil.2, rfl, rfl, rfl, rfl, rfl, rfl, rfl, rfl⟩
  case _ => exact absurd h (by simp)

/-- A spread is accepted iff some candidate pair of some company and
expiration produced it. -/
theorem mem_baseSpreads {data : InputData} {s : Spread} :
    s ∈ baseSpreads data ↔
      ∃ c ∈ data.options_by_company, ∃ e ∈ c.2.expiration_dates,
        ∃ p ∈ adjacentPairs (calls_above_price c.2.current_stock_price
          e.2.contracts),
          processPair bs_calc c.1 c.2.current_stock_price
            (price_lookup data.prices_by_company)
            (greek_lookup data.risk_by_company) p.1 p.2 = some s := by
  simp [baseSpreads, companySpreads, expirationSpreads, List.mem_flatMap,
    List.mem_filterMap]

theorem no_delta_eq (data : InputData) (now : String) :
    (find_deals_with_delta_analysis data now).all_spreads_no_delta =
      sortByPop (baseSpreads data) := rfl

theorem loose_delta_eq (data : InputData) (now : String) :
    (find_deals_with_delta_analysis data now).all_spreads_loose_delta =
      sortByPop ((baseSpreads data).filter loosePred) := rfl

theorem strict_delta_eq (data : InputData) (now : String) :
    (find_deals_with_delta_analysis data now).all_spreads_strict_delta =
      sortByPop ((baseSpreads data).filter strictPred) := rfl

theorem mem_sortByPop {s : Spread} {l : List Spread} :
    s ∈ sortByPop l ↔ s ∈ l := List.mem_mergeSort

/-- Adjacent elements of a pairwise-related list are related. -/
theorem pairwise_adjacentPairs {α : Type} {R : α → α → Prop} :
    ∀ {l : List α}, l.Pairwise R → ∀ p ∈ adjacentPairs l, R p.1 p.2
  | [], _, p, hp => by simp [adjacentPairs] at hp
  | [a], _, p, hp => by simp [adjacentPairs] at hp
  | a :: b :: u, hl, p, hp => by
    rw [List.pairwise_cons] at hl
    rcases (by simpa [adjacentPairs] using hp : p = (a, b) ∨
        p ∈ adjacentPairs (b :: u)) with hp' | hp'
    · subst hp'
      exact hl.1 b (by simp)
    · exact pairwise_adjacentPairs hl.2 p hp'

/-- Both members of an emitted candidate pair come from the sorted
OTM-call list. -/
theorem mem_of_mem_adjacentPairs {α : Type} {l : List α} {p : α × α}
    (hp : p ∈ adjacentPairs l) : p.1 ∈ l ∧ p.2 ∈ l := by
  obtain ⟨h1, h2⟩ := List.of_mem_zip (Prod.mk.eta (p := p) ▸ hp)
  exact ⟨h1, l.tail_sublist.mem h2⟩

/-! ### Claims about the pricing model -/

/-- **C5.** For every `S > 0` and `K > 0` (and every `r`, `σ`), the price
operation with `T = 0` — and more generally whenever `T ≤ 0` or `σ ≤ 0` —
returns the intrinsic value: `max (S−K) 0` for a CALL and `max (K−S) 0`
for a PUT. -/
theorem degenerate_price_is_intrinsic (bs : BlackScholesCalculator)
    (S K T r sigma : ℝ) (hS : 0 < S) (hK : 0 < K) (h : T ≤ 0 ∨ sigma ≤ 0) :
    bs.price S K T r sigma "call" = max (S - K) 0 ∧
      bs.price S K T r sigma "put" = max (K - S) 0 := by
  rcases h with h | h <;>
    exact ⟨by simp [BlackScholesCalculator.price,
        BlackScholesCalculator.black_scholes_call, h],
      by simp [BlackScholesCalculator.price, h]⟩

theorem degenerate_price_is_intrinsic_witness :
    0 < (100 : ℝ) ∧ 0 < (90 : ℝ) ∧ ((0 : ℝ) ≤ 0 ∨ (0.3 : ℝ) ≤ 0) ∧
      (bs_calc.price 100 90 0 0.05 0.3 "call" = max (100 - 90) 0 ∧
        bs_calc.price 100 90 0 0.05 0.3 "put" = max (90 - 100) 0) :=
  ⟨by norm_num, by norm_num, Or.inl le_rfl,
    degenerate_price_is_intrinsic bs_calc 100 90 0 0.05 0.3 (by norm_num)
      (by norm_num) (Or.inl le_rfl)⟩

/-- **C6.** For fixed `S > 0`, `T > 0`, `σ > 0` (and `K` on the spec's
valid domain `K > 0`), `probability_otm` for a CALL is monotonically
non-decreasing in the strike `K`. -/
theorem probability_otm_call_mono_strike (bs : BlackScholesCalculator)
    (S T sigma K1 K2 : ℝ) (hS : 0 < S) (hT : 0 < T) (hsig : 0 < sigma)
    (hK1 : 0 < K1) (hK : K1 ≤ K2) :
    bs.probability_otm S K1 T sigma "call" ≤
      bs.probability_otm S K2 T sigma "call" := by
  have hT' : ¬T ≤ 0 := not_le.mpr hT
  have hs' : ¬sigma ≤ 0 := not_le.mpr hsig
  rw [BlackScholesCalculator.probability_otm, BlackScholesCalculator.probability_otm,
    if_neg hT', if_neg hT', if_neg hs', if_neg hs', if_pos rfl, if_pos rfl]
  apply normCdf_mono
  have hden : 0 < sigma * Real.sqrt T := by positivity
  have hK2 : 0 < K2 := lt_of_lt_of_le hK1 hK
  have hlog : Real.log (S / K2) ≤ Real.log (S / K1) :=
    Real.log_le_log (by positivity) (div_le_div_of_nonneg_left hS.le hK1 hK)
  have hnum : Real.log (S / K2) + (bs.risk_free_rate - 0.5 * sigma ^ 2) * T ≤
      Real.log (S / K1) + (bs.risk_free_rate - 0.5 * sigma ^ 2) * T := by
    linarith
  exact neg_le_neg ((div_le_div_iff_of_pos_right hden).mpr hnum)

theorem probability_otm_call_mono_strike_witness :
    0 < (100 : ℝ) ∧ 0 < (1 : ℝ) ∧ 0 < (0.3 : ℝ) ∧ 0 < (105 : ℝ) ∧
      (105 : ℝ) ≤ 110 ∧
      bs_calc.probability_otm 100 105 1 0.3 "call" ≤
        bs_calc.probability_otm 100 110 1 0.3 "call" :=
  ⟨by norm_num, by norm_num, by norm_num, by norm_num, by norm_num,
    probability_otm_call_mono_strike bs_calc 100 1 0.3 105 110 (by norm_num)
      (by norm_num) (by norm_num) (by norm_num) (by norm_num)⟩

/-- **C7.** For every valid input with `S > 0`, `K > 0`, `σ > 0`
and `T > 0`, the delta returned by the greeks operation lies in `[0, 1]`
for a CALL and in `[−1, 0]` for a PUT. -/
theorem greeks_delta_bounds (bs : BlackScholesCalculator) (S K T r sigma : ℝ)
    (hS : 0 < S) (hK : 0 < K) (hsig : 0 < sigma) (hT : 0 < T) :
    (0 ≤ (bs.calculate_greeks S K T r sigma "call").delta ∧
      (bs.calculate_greeks S K T r sigma "call").delta ≤ 1) ∧
    (-1 ≤ (bs.calculate_greeks S K T r sigma "put").delta ∧
      (bs.calculate_greeks S K T r sigma "put").delta ≤ 0) := by
  have hT' : ¬T ≤ 0 := not_le.mpr hT
  have hs' : ¬sigma ≤ 0 := not_le.mpr hsig
  rw [BlackScholesCalculator.calculate_greeks, BlackScholesCalculator.calculate_greeks,
    if_neg hT', if_neg hT', if_neg hs', if_neg hs']
  refine ⟨?_, ?_⟩
  · rw [if_pos rfl]
    exact ⟨normCdf_nonneg _, normCdf_le_one _⟩
  · rw [if_neg (by simp)]
    constructor
    · simpa using neg_le_neg (normCdf_le_one (-(_ : ℝ)))
    · simpa using neg_le_neg (normCdf_nonneg (-(_ : ℝ)))

/-- Every accepted spread passed the primary filter, recorded in its own
`roi_percent` and `probability_of_profit` fields. -/
theorem roi_pop_of_mem_base {data : InputData} {s : Spread}
    (h : s ∈ baseSpreads data) :
    10 < s.roi_percent ∧ 66 < s.probability_of_profit := by
  obtain ⟨c, -, e, -, p, -, hp⟩ := mem_baseSpreads.mp h
  obtain ⟨spd, lpd, sgd, lgd, -, -, -, -, -, -, -, -, -, hroi, hpop, -⟩ :=
    processPair_some_inv hp
  exact ⟨hroi, hpop⟩

/-- A spread in any of the three views was accepted into the base list. -/
theorem mem_views_imp_base {data : InputData} {now : String} {s : Spread}
    (hs : s ∈ (find_deals_with_delta_analysis data now).all_spreads_no_delta ∨
      s ∈ (find_deals_with_delta_analysis data now).all_spreads_loose_delta ∨
      s ∈ (find_deals_with_delta_analysis data now).all_spreads_strict_delta) :
    s ∈ baseSpreads data := by
  rcases hs with hs | hs | hs
  · rwa [no_delta_eq, mem_sortByPop] at hs
  · rw [loose_delta_eq, mem_sortByPop, List.mem_filter] at hs
    exact hs.1
  · rw [strict_delta_eq, mem_sortByPop, List.mem_filter] at hs
    exact hs.1

/-- **C3.** The three candidate lists are nested by the delta constraint
(strict ⊆ loose ⊆ unconstrained), and no spread with `roi ≤ 10` or
`PoP ≤ 66` appears in any of the three lists. -/
theorem views_nested_and_primary_filtered (data : InputData) (now : String) :
    ((find_deals_with_delta_analysis data now).all_spreads_strict_delta ⊆
      (find_deals_with_delta_analysis data now).all_spreads_loose_delta) ∧
    ((find_deals_with_delta_analysis data now).all_spreads_loose_delta ⊆
      (find_deals_with_delta_analysis data now).all_spreads_no_delta) ∧
    (∀ s : Spread,
      (s ∈ (find_deals_with_delta_analysis data now).all_spreads_no_delta ∨
       s ∈ (find_deals_with_delta_analysis data now).all_spreads_loose_delta ∨
       s ∈ (find_deals_with_delta_analysis data now).all_spreads_strict_delta) →
      10 < s.roi_percent ∧ 66 < s.probability_of_profit) := by
  refine ⟨?_, ?_, ?_⟩
  · intro s hs
    rw [strict_delta_eq, mem_sortByPop, List.mem_filter] at hs
    rw [loose_delta_eq, mem_sortByPop, List.mem_filter]
    refine ⟨hs.1, ?_⟩
    have h2 := hs.2
    simp only [strictPred, Bool.and_eq_true, decide_eq_true_eq] at h2
    simp only [loosePred, Bool.and_eq_true, decide_eq_true_eq]
    constructor <;> linarith [h2.1, h2.2]
  · intro s hs
    rw [loose_delta_eq, mem_sortByPop, List.mem_filter] at hs
    rw [no_delta_eq, mem_sortByPop]
    exact hs.1
  · intro s hs
    exact roi_pop_of_mem_base (mem_views_imp_base hs)

/-- **C8.** Every surviving spread's probability-of-profit field equals
`probability_otm(spot, short.strike, T, avgIV, CALL) × 100` where `avgIV`
is the arithmetic mean of the two legs' implied volatilities looked up in
the risk dataset. -/
theorem pop_uses_short_strike_and_avg_iv (data : InputData) (now : String) :
    ∀ s ∈ (find_deals_with_delta_analysis data now).all_spreads_no_delta,
      ∃ ssym lsym : String, ∃ sgd lgd : GreekRecord,
        greek_lookup data.risk_by_company ssym = some sgd ∧
        greek_lookup data.risk_by_company lsym = some lgd ∧
        s.avg_implied_volatility =
          (sgd.implied_volatility + lgd.implied_volatility) / 2 ∧
        s.probability_of_profit =
          bs_calc.probability_otm s.current_stock_price s.short_strike
            (s.days_to_expiration / 365) s.avg_implied_volatility "call" * 100 := by
  intro s hs
  rw [no_delta_eq, mem_sortByPop] at hs
  obtain ⟨c, -, e, -, p, -, hp⟩ := mem_baseSpreads.mp hs
  obtain ⟨spd, lpd, sgd, lgd, -, -, hsgd, hlgd, -, -, -, -, -, -, -, -,
    hss, -, hdays, -, hspot, haiv, hpop⟩ := processPair_some_inv hp
  exact ⟨p.1.streamer_symbol, p.2.streamer_symbol, sgd, lgd, hsgd, hlgd, haiv,
    by rw [hpop, haiv, hss, hdays, hspot]⟩

/-- **C9.** A candidate pair with a data-completeness gap — any of the four
snapshot lookups missing for its legs, a market credit `≤ 0`, or a max risk
`≤ 0` — produces no spread: the loop body yields `none` (a `continue`),
so the candidate appears in none of the three output lists (which are
built by `filterMap` over `processPair`), and the total function raises
no exception and continues with the remaining candidates. -/
theorem gap_candidate_excluded (bs : BlackScholesCalculator) (company : String)
    (spot : ℝ) (priceL : String → Option PriceRecord)
    (greekL : String → Option GreekRecord) (sc lc : OptionContract)
    (h : priceL sc.streamer_symbol = none ∨ priceL lc.streamer_symbol = none ∨
      greekL sc.streamer_symbol = none ∨ greekL lc.streamer_symbol = none ∨
      ∃ spd lpd, priceL sc.streamer_symbol = some spd ∧
        priceL lc.streamer_symbol = some lpd ∧
        (spd.what_buyers_pay - lpd.what_sellers_want ≤ 0 ∨
          (lc.strike_price - sc.strike_price) -
            (spd.what_buyers_pay - lpd.what_sellers_want) ≤ 0)) :
    processPair bs company spot priceL greekL sc lc = none := by
  rcases h with h | h | h | h | ⟨spd, lpd, hspd, hlpd, hc⟩
  · simp [processPair, h]
  · simp [processPair, h]
  · simp [processPair, h]
  · simp [processPair, h]
  rcases hsgd : greekL sc.streamer_symbol with _ | sgd
  · simp [processPair, hsgd]
  rcases hlgd : greekL lc.streamer_symbol with _ | lgd
  · simp [processPair, hlgd]
  rw [processPair]
  split
  · rfl
  rw [hspd, hlpd, hsgd, hlgd]
  simp only []
  split
  · rfl
  split
  · rfl
  next hba =>
  split
  · rfl
  next hcred =>
  push_neg at hba hcred
  rcases hc with hc | hc
  · exact absurd hc (not_le.mpr hcred)
  · rw [if_neg (not_lt.mpr hc), if_pos (Or.inl (by norm_num))]

theorem gap_candidate_excluded_witness :
    ((fun _ : String => (none : Option PriceRecord)) "a" = none) ∧
    processPair bs_calc "T" 100 (fun _ => none) (fun _ => none)
      ⟨"a", 101, "CALL", 30⟩ ⟨"b", 102, "CALL", 30⟩ = none :=
  ⟨rfl,
    gap_candidate_excluded bs_calc "T" 100 (fun _ => none) (fun _ => none)
      ⟨"a", 101, "CALL", 30⟩ ⟨"b", 102, "CALL", 30⟩ (Or.inl rfl)⟩

/-- **C10.** Every spread in any output list descends from quote records
with `short.bid > 0` and `long.ask > 0` and has time-to-expiry
`T = days/365 > 0` (so the pricing model's `T ≤ 0` branch is never reached
from the pipeline); moreover a candidate whose long ask is non-positive is
excluded even when its market credit `short.bid − long.ask` is positive. -/
theorem output_bid_ask_time_invariants (data : InputData) (now : String) :
    (∀ s : Spread,
      (s ∈ (find_deals_with_delta_analysis data now).all_spreads_no_delta ∨
       s ∈ (find_deals_with_delta_analysis data now).all_spreads_loose_delta ∨
       s ∈ (find_deals_with_delta_analysis data now).all_spreads_strict_delta) →
      ∃ ssym lsym : String, ∃ spd lpd : PriceRecord,
        price_lookup data.prices_by_company ssym = some spd ∧
        price_lookup data.prices_by_company lsym = some lpd ∧
        s.credit_collected = spd.what_buyers_pay - lpd.what_sellers_want ∧
        0 < spd.what_buyers_pay ∧ 0 < lpd.what_sellers_want ∧
        0 < s.days_to_expiration / 365) ∧
    (∀ (bs : BlackScholesCalculator) (company : String) (spot : ℝ)
      (priceL : String → Option PriceRecord)
      (greekL : String → Option GreekRecord) (sc lc : OptionContract)
      (spd lpd : PriceRecord),
      priceL sc.streamer_symbol = some spd →
      priceL lc.streamer_symbol = some lpd →
      0 < spd.what_buyers_pay - lpd.what_sellers_want →
      lpd.what_sellers_want ≤ 0 →
      processPair bs company spot priceL greekL sc lc = none) := by
  constructor
  · intro s hs
    obtain ⟨c, -, e, -, p, -, hp⟩ := mem_baseSpreads.mp (mem_views_imp_base hs)
    obtain ⟨spd, lpd, sgd, lgd, hspd, hlpd, -, -, -, hT, hbid, hask, -, -, -, -,
      -, -, hdays, hcred, -, -, -⟩ := processPair_some_inv hp
    exact ⟨p.1.streamer_symbol, p.2.streamer_symbol, spd, lpd, hspd, hlpd, hcred,
      hbid, hask, by rwa [hdays]⟩
  · intro bs company spot priceL greekL sc lc spd lpd hspd hlpd _hcred hask
    rcases hsgd : greekL sc.streamer_symbol with _ | sgd
    · simp [processPair, hsgd]
    rcases hlgd : greekL lc.streamer_symbol with _ | lgd
    · simp [processPair, hlgd]
    rw [processPair]
    split
    · rfl
    rw [hspd, hlpd, hsgd, hlgd]
    simp only []
    split
    · rfl
    rw [if_pos (Or.inr hask)]

theorem output_bid_ask_time_invariants_witness :
    ((fun q : String => if q = "a" then some (⟨"a", 1, 1⟩ : PriceRecord)
        else some (⟨"b", 0.4, -2⟩ : PriceRecord)) "a" = some ⟨"a", 1, 1⟩ ∧
      (fun q : String => if q = "a" then some (⟨"a", 1, 1⟩ : PriceRecord)
        else some (⟨"b", 0.4, -2⟩ : PriceRecord)) "b" = some ⟨"b", 0.4, -2⟩ ∧
      (0 : ℝ) < 1 - (-2) ∧ (-2 : ℝ) ≤ 0) ∧
    processPair bs_calc "T" 100
      (fun q => if q = "a" then some ⟨"a", 1, 1⟩ else some ⟨"b", 0.4, -2⟩)
      (fun _ => none) ⟨"a", 101, "CALL", 30⟩ ⟨"b", 102, "CALL", 30⟩ = none :=
  ⟨⟨by norm_num, by norm_num; decide, by norm_num, by norm_num⟩,
    (output_bid_ask_time_invariants ⟨[], [], []⟩ "t").2 bs_calc "T" 100
      (fun q => if q = "a" then some ⟨"a", 1, 1⟩ else some ⟨"b", 0.4, -2⟩)
      (fun _ => none) ⟨"a", 101, "CALL", 30⟩ ⟨"b", 102, "CALL", 30⟩
      ⟨"a", 1, 1⟩ ⟨"b", 0.4, -2⟩ (by norm_num) (by norm_num; decide)
      (by norm_num) (by norm_num)⟩

theorem greeks_delta_bounds_witness :
    0 < (100 : ℝ) ∧ 0 < (105 : ℝ) ∧ 0 < (0.3 : ℝ) ∧ 0 < (0.25 : ℝ) ∧
      ((0 ≤ (bs_calc.calculate_greeks 100 105 0.25 0.05 0.3 "call").delta ∧
        (bs_calc.calculate_greeks 100 105 0.25 0.05 0.3 "call").delta ≤ 1) ∧
      (-1 ≤ (bs_calc.calculate_greeks 100 105 0.25 0.05 0.3 "put").delta ∧
        (bs_calc.calculate_greeks 100 105 0.25 0.05 0.3 "put").delta ≤ 0)) :=
  ⟨by norm_num, by norm_num, by norm_num, by norm_num,
    greeks_delta_bounds bs_calc 100 105 0.25 0.05 0.3 (by norm_num) (by norm_num)
      (by norm_num) (by norm_num)⟩

end

theorem calls_eval : calls_above_price 100 tExp.contracts = [cA, cB] := by
  rw [calls_above_price]
  have h1 : ([cA, cB].filter (fun c => c.contract_type == "CALL")) = [cA, cB] := by
    simp [cA, cB]
  have h2 : ([cA, cB].filter fun c => decide (c.strike_price > 100)) = [cA, cB] := by
    simp [cA, cB]
    norm_num
  show (((tExp.contracts.filter _).filter _).mergeSort _) = _
  rw [show tExp.contracts = [cA, cB] from rfl, h1, h2]
  refine List.mergeSort_of_sorted ?_
  simp [cA, cB]
  norm_num

theorem pairs_eval :
    adjacentPairs (calls_above_price 100 tExp.contracts) = [(cA, cB)] := by
  rw [calls_eval]
  rfl

theorem lookup_a : price_lookup tPrices "a" = some ⟨"a", 1, 2⟩ := by
  simp [price_lookup, tPrices]

theorem lookup_b : price_lookup tPrices "b" = some ⟨"b", 0.4, 0.5⟩ := by
  simp [price_lookup, tPrices]

theorem glookup_a : greek_lookup tRisk "a" = some ⟨"a", 0⟩ := by
  simp [greek_lookup, tRisk]

theorem glookup_b : greek_lookup tRisk "b" = some ⟨"b", 0⟩ := by
  simp [greek_lookup, tRisk]

theorem processPair_eval :
    processPair bs_calc "T" 100 (price_lookup tPrices) (greek_lookup tRisk)
      cA cB = some tSpread := by
  rw [processPair]
  norm_num [cA, cB, lookup_a, lookup_b, glookup_a, glookup_b, tSpread,
    BlackScholesCalculator.probability_otm, BlackScholesCalculator.calculate_greeks]

theorem expiration_eval :
    expirationSpreads bs_calc "T" 100 (price_lookup tPrices) (greek_lookup tRisk)
      tExp.contracts = [tSpread] := by
  rw [expirationSpreads, pairs_eval]
  simp [List.filterMap, processPair_eval]

theorem base_eval : baseSpreads tData = List.replicate 26 tSpread := by
  rw [baseSpreads]
  show ([("T", tCompany)].flatMap _) = _
  simp only [List.flatMap_cons, List.flatMap_nil, List.append_nil, companySpreads]
  rw [show tCompany.expiration_dates =
    [("e01", tExp), ("e02", tExp), ("e03", tExp), ("e04", tExp), ("e05", tExp),
     ("e06", tExp), ("e07", tExp), ("e08", tExp), ("e09", tExp), ("e10", tExp),
     ("e11", tExp), ("e12", tExp), ("e13", tExp), ("e14", tExp), ("e15", tExp),
     ("e16", tExp), ("e17", tExp), ("e18", tExp), ("e19", tExp), ("e20", tExp),
     ("e21", tExp), ("e22", tExp), ("e23", tExp), ("e24", tExp), ("e25", tExp),
     ("e26", tExp)] from rfl]
  rw [show tData.prices_by_company = tPrices from rfl,
    show tData.risk_by_company = tRisk from rfl,
    show tCompany.current_stock_price = (100 : ℝ) from rfl]
  simp only [List.flatMap_cons, List.flatMap_nil, expiration_eval,
    List.append_nil, List.cons_append, List.nil_append]
  rfl

theorem loosePred_tSpread : loosePred tSpread = true := by
  norm_num [loosePred, tSpread]

theorem strictPred_tSpread : strictPred tSpread = true := by
  norm_num [strictPred, tSpread]

/-- **C2, counterexample.** On `tData` the loose-delta view of the produced
result holds 26 entries: the loose and strict views are not truncated to
the top 25 (only `best_deals`, the saved unconstrained view, is). -/
theorem views_truncated_counterexample :
    25 < (find_deals_with_delta_analysis tData
      "2025-01-01T00:00:00").all_spreads_loose_delta.length := by
  rw [loose_delta_eq, sortByPop, List.length_mergeSort, base_eval,
    List.filter_replicate, if_pos loosePred_tSpread, List.length_replicate]
  norm_num

/-- A stable descending sort really is sorted descending by PoP. -/
theorem sortByPop_sorted (l : List Spread) :
    (sortByPop l).Pairwise
      (fun a b => b.probability_of_profit ≤ a.probability_of_profit) := by
  have h := @List.sorted_mergeSort Spread
    (fun a b =>
      decide (b.probability_of_profit ≤ a.probability_of_profit))
    (fun a b c h1 h2 => by
      simp only [decide_eq_true_eq] at h1 h2 ⊢
      exact le_trans h2 h1)
    (fun a b => by
      simp only [Bool.or_eq_true, decide_eq_true_eq]
      exact le_total _ _) l
  exact h.imp (fun hab => of_decide_eq_true hab)

/-- **C2, amended.** Each of the three views is independently sorted
descending by PoP; the result document truncates only the unconstrained
view (its `best_deals` field is that view's top 25); the loose and strict
views are not truncated and enter the result only as counts. -/
theorem views_sorted_and_best_deals_top25 (data : InputData) (now : String) :
    ((find_deals_with_delta_analysis data now).all_spreads_no_delta.Pairwise
      (fun a b => b.probability_of_profit ≤ a.probability_of_profit) ∧
     (find_deals_with_delta_analysis data now).all_spreads_loose_delta.Pairwise
      (fun a b => b.probability_of_profit ≤ a.probability_of_profit) ∧
     (find_deals_with_delta_analysis data now).all_spreads_strict_delta.Pairwise
      (fun a b => b.probability_of_profit ≤ a.probability_of_profit)) ∧
    (find_deals_with_delta_analysis data now).best_deals =
      (find_deals_with_delta_analysis data now).all_spreads_no_delta.take 25 ∧
    (find_deals_with_delta_analysis data now).loose_delta_filter =
      (find_deals_with_delta_analysis data now).all_spreads_loose_delta.length ∧
    (find_deals_with_delta_analysis data now).strict_delta_filter =
      (find_deals_with_delta_analysis data now).all_spreads_strict_delta.length :=
  ⟨⟨sortByPop_sorted _, sortByPop_sorted _, sortByPop_sorted _⟩, rfl, rfl, rfl⟩

/-- **C1, counterexample.** Two runs of the pipeline on the identical
input dataset `tData`, at different wall-clock instants, produce different
result documents: the saved document embeds `datetime.now().isoformat()`
in its `timestamp` field. -/
theorem rerun_not_byte_identical :
    find_deals_with_delta_analysis tData "2025-01-01T00:00:00" ≠
      find_deals_with_delta_analysis tData "2025-01-02T00:00:00" := by
  intro h
  have ht := congrArg Output.timestamp h
  rw [show (find_deals_with_delta_analysis tData "2025-01-01T00:00:00").timestamp =
    "2025-01-01T00:00:00" from rfl] at ht
  rw [show (find_deals_with_delta_analysis tData "2025-01-02T00:00:00").timestamp =
    "2025-01-02T00:00:00" from rfl] at ht
  exact absurd ht (by decide)

/-- **C1, amended.** Apart from the timestamp field, the pipeline is a
pure function of its input datasets: two runs on identical inputs agree on
every ranked list, count and document field other than `timestamp`. -/
theorem rerun_deterministic_modulo_timestamp (data : InputData)
    (now₁ now₂ : String) :
    eraseTimestamp (find_deals_with_delta_analysis data now₁) =
      eraseTimestamp (find_deals_with_delta_analysis data now₂) := rfl

theorem dup_calls_eval : calls_above_price 100 [dupC1, dupC2] = [dupC1, dupC2] := by
  rw [calls_above_price]
  have h1 : ([dupC1, dupC2].filter (fun c => c.contract_type == "CALL")) =
      [dupC1, dupC2] := by
    simp [dupC1, dupC2]
  have h2 : ([dupC1, dupC2].filter fun c => decide (c.strike_price > 100)) =
      [dupC1, dupC2] := by
    simp [dupC1, dupC2]
    norm_num
  rw [h1, h2]
  refine List.mergeSort_of_sorted ?_
  simp [dupC1, dupC2]

/-- **C4, counterexample.** With two CALL contracts that share the strike
`101` above spot `100`, the constructor emits the adjacent pair of the two
equal-strike contracts — its width `0` does not exceed the maximum — so it
does yield a pair with `short.strike ≥ long.strike`. -/
theorem constructor_equal_strikes_counterexample :
    (dupC1, dupC2) ∈ adjacentPairs (calls_above_price 100 [dupC1, dupC2]) ∧
    ¬dupC2.strike_price - dupC1.strike_price > 5 ∧
    dupC1.strike_price ≥ dupC2.strike_price := by
  refine ⟨?_, ?_, ?_⟩
  · rw [dup_calls_eval]
    simp [adjacentPairs]
  · norm_num [dupC1, dupC2]
  · norm_num [dupC1, dupC2]

/-- **C4, amended.** Every pair the constructor emits consists of CALL
contracts with strikes strictly above spot, adjacent in the ascending
strike order, hence `short.strike ≤ long.strike`; the inequality is strict
whenever the contracts' strikes are pairwise distinct (on data with a
duplicated strike the emitted pair can have equal strikes). -/
theorem constructor_pair_invariants (spot : ℝ) (contracts : List OptionContract) :
    ∀ p ∈ adjacentPairs (calls_above_price spot contracts),
      p.1.contract_type = "CALL" ∧ p.2.contract_type = "CALL" ∧
      spot < p.1.strike_price ∧ spot < p.2.strike_price ∧
      p.1.strike_price ≤ p.2.strike_price ∧
      (contracts.Pairwise (fun a b => a.strike_price ≠ b.strike_price) →
        p.1.strike_price < p.2.strike_price) := by
  intro p hp
  have hmem := mem_of_mem_adjacentPairs hp
  have hprops : ∀ c ∈ calls_above_price spot contracts,
      c.contract_type = "CALL" ∧ spot < c.strike_price := by
    intro c hc
    rw [calls_above_price, List.mem_mergeSort, List.mem_filter] at hc
    obtain ⟨hc1, hc2⟩ := hc
    rw [List.mem_filter] at hc1
    exact ⟨by simpa using hc1.2, by simpa using hc2⟩
  have hsorted : (calls_above_price spot contracts).Pairwise
      (fun a b => a.strike_price ≤ b.strike_price) := by
    have h := @List.sorted_mergeSort OptionContract
      (fun a b => decide (a.strike_price ≤ b.strike_price))
      (fun a b c h1 h2 => by
        simp only [decide_eq_true_eq] at h1 h2 ⊢
        exact le_trans h1 h2)
      (fun a b => by
        simp only [Bool.or_eq_true, decide_eq_true_eq]
        exact le_total _ _)
      ((contracts.filter (fun c => c.contract_type == "CALL")).filter
        (fun c => decide (c.strike_price > spot)))
    exact h.imp (fun hab => of_decide_eq_true hab)
  obtain ⟨h1, h2⟩ := hprops p.1 hmem.1
  obtain ⟨h3, h4⟩ := hprops p.2 hmem.2
  refine ⟨h1, h3, h2, h4, pairwise_adjacentPairs hsorted p hp, ?_⟩
  intro hdist
  have hdist' : (calls_above_price spot contracts).Pairwise
      (fun a b => a.strike_price ≠ b.strike_price) := by
    have hsub : ((contracts.filter (fun c => c.contract_type == "CALL")).filter
        (fun c => decide (c.strike_price > spot))).Pairwise
        (fun a b => a.strike_price ≠ b.strike_price) :=
      (hdist.sublist (List.filter_sublist _)).sublist (List.filter_sublist _)
    exact ((List.mergeSort_perm _ _).pairwise_iff (fun h => h.symm)).mpr hsub
  exact lt_of_le_of_ne (pairwise_adjacentPairs hsorted p hp)
    (pairwise_adjacentPairs hdist' p hp)

theorem constructor_pair_invariants_witness :
    ((cA, cB) ∈ adjacentPairs (calls_above_price 100 tExp.contracts)) ∧
    (tExp.contracts.Pairwise (fun a b => a.strike_price ≠ b.strike_price)) ∧
    cA.strike_price ≤ cB.strike_price ∧ cA.strike_price < cB.strike_price := by
  have hmem : (cA, cB) ∈ adjacentPairs (calls_above_price 100 tExp.contracts) := by
    rw [pairs_eval]
    simp
  have hdist : tExp.contracts.Pairwise
      (fun a b => a.strike_price ≠ b.strike_price) := by
    show ([cA, cB]).Pairwise _
    simp [cA, cB]
  have h := constructor_pair_invariants 100 tExp.contracts (cA, cB) hmem
  exact ⟨hmem, hdist, h.2.2.2.2.1, h.2.2.2.2.2 hdist⟩

theorem tSpread_mem_strict :
    tSpread ∈ (find_deals_with_delta_analysis tData
      "2025-01-01T00:00:00").all_spreads_strict_delta := by
  rw [strict_delta_eq, mem_sortByPop, base_eval, List.mem_filter,
    List.mem_replicate]
  exact ⟨⟨by norm_num, rfl⟩, strictPred_tSpread⟩

theorem tSpread_mem_no_delta :
    tSpread ∈ (find_deals_with_delta_analysis tData
      "2025-01-01T00:00:00").all_spreads_no_delta := by
  rw [no_delta_eq, mem_sortByPop, base_eval, List.mem_replicate]
  exact ⟨by norm_num, rfl⟩

theorem views_nested_and_primary_filtered_witness :
    tSpread ∈ (find_deals_with_delta_analysis tData
      "2025-01-01T00:00:00").all_spreads_strict_delta ∧
    tSpread ∈ (find_deals_with_delta_analysis tData
      "2025-01-01T00:00:00").all_spreads_loose_delta ∧
    10 < tSpread.roi_percent ∧ 66 < tSpread.probability_of_profit :=
  ⟨tSpread_mem_strict,
    (views_nested_and_primary_filtered tData "2025-01-01T00:00:00").1
      tSpread_mem_strict,
    (views_nested_and_primary_filtered tData "2025-01-01T00:00:00").2.2 tSpread
      (Or.inr (Or.inr tSpread_mem_strict))⟩

theorem pop_uses_short_strike_and_avg_iv_witness :
    tSpread ∈ (find_deals_with_delta_analysis tData
      "2025-01-01T00:00:00").all_spreads_no_delta ∧
    ∃ ssym lsym : String, ∃ sgd lgd : GreekRecord,
      greek_lookup tData.risk_by_company ssym = some sgd ∧
      greek_lookup tData.risk_by_company lsym = some lgd ∧
      tSpread.avg_implied_volatility =
        (sgd.implied_volatility + lgd.implied_volatility) / 2 ∧
      tSpread.probability_of_profit =
        bs_calc.probability_otm tSpread.current_stock_price tSpread.short_strike
          (tSpread.days_to_expiration / 365) tSpread.avg_implied_volatility
          "call" * 100 :=
  ⟨tSpread_mem_no_delta,
    pop_uses_short_strike_and_avg_iv tData "2025-01-01T00:00:00" tSpread
      tSpread_mem_no_delta⟩
